import Mathlib

/-!
Verification development for the `lucaskanade` module of the pysteps repository
(`src/pysteps/optflow/lucaskanade.py`).

The Python functions are shallowly embedded as Lean functions:

* numpy float arrays of coordinates/velocities are modelled as `List ℚ`
  (exact arithmetic; real-valued quantities produced by `sqrt`/`exp` live in `ℝ`);
* fallible code is modelled with `Except String`;
* numpy helpers (`np.median`, `np.percentile`, boolean-mask indexing,
  `np.array_split`, `scipy.spatial.cKDTree.query`, `pdist`) are embedded by
  their documented semantics (stable sort, linear interpolation of order
  statistics, contiguous split sizes, nearest neighbours sorted by distance
  with ties broken by lowest index);
* values that Python floats represent but ℚ cannot (NaN, ±inf) are modelled
  by the inductive `PyFloat` where the distinction matters (input validation).

Known crash paths of the source are embedded as `Except.error` values carrying
the corresponding Python exception text:

* `interpolate_sparse_vectors` with `function="nearest"` and `k="all"` uses the
  variable `tree` (line 472) which is only assigned when `k is not "all"`
  (line 455), raising `UnboundLocalError`;
* `cKDTree.query(subgrid, k=1)` squeezes its result arrays to one dimension,
  so `np.sum(w * ..., axis=1)` (line 499) raises an axis error whenever the
  clipped neighbour count `min(k, n_samples)` equals 1 for the
  inverse/gaussian kernels;
* `declustering` applies `.squeeze()` to the stacked cell-key array (line 364),
  which for exactly one sample drops the length-1 row axis and makes
  `xy.shape[1]` (line 365) raise `IndexError`.
-/

/-- Stable insertion into a sorted list (used to model numpy sorting). -/
def stableInsert (le : α → α → Bool) (a : α) : List α → List α
  | [] => [a]
  | b :: l => if le a b then a :: b :: l else b :: stableInsert le a l

/-- Stable insertion sort: equal elements keep their original relative order,
matching the tie behaviour assumed for `cKDTree.query` (lowest index first). -/
def stableSort (le : α → α → Bool) : List α → List α
  | [] => []
  | a :: l => stableInsert le a (stableSort le l)

/-- Boolean comparison on `ℚ`. -/
def qle (a b : ℚ) : Bool := decide (a ≤ b)

/-- Boolean comparison on `ℝ` (classically decidable). -/
noncomputable def rle (a b : ℝ) : Bool := decide (a ≤ b)

/-- numpy boolean-mask indexing `arr[mask]`: keep the entries whose mask bit
is set. -/
def maskSelect : List α → List Bool → List α
  | [], _ => []
  | _, [] => []
  | a :: l, b :: m => if b then a :: maskSelect l m else maskSelect l m

/-- `np.median` on an exact-rational list: middle element of the sorted list,
or the mean of the two middle elements for even length. -/
def npMedianQ (l : List ℚ) : ℚ :=
  let s := stableSort qle l
  let n := l.length
  if n % 2 = 1 then s.getD (n / 2) 0 else (s.getD (n / 2 - 1) 0 + s.getD (n / 2) 0) / 2

/-- `np.median` on a real list. -/
noncomputable def npMedianR (l : List ℝ) : ℝ :=
  let s := stableSort rle l
  let n := l.length
  if n % 2 = 1 then s.getD (n / 2) 0 else (s.getD (n / 2 - 1) 0 + s.getD (n / 2) 0) / 2

/-- `np.percentile(l, p)` with the default linear interpolation: with sorted
values `s` and `h = (len-1)*p/100`, the result is
`s[⌊h⌋] + (h-⌊h⌋)*(s[⌊h⌋+1]-s[⌊h⌋])`. -/
noncomputable def npPercentileR (l : List ℝ) (p : ℚ) : ℝ :=
  let s := stableSort rle l
  let h : ℚ := ((l.length : ℚ) - 1) * p / 100
  let lo : ℕ := (⌊h⌋).toNat
  let lov := s.getD lo 0
  lov + ((h - (lo : ℚ) : ℚ) : ℝ) * (s.getD (lo + 1) lov - lov)

/-- One sparse motion vector `(x, y, u, v)` in pixel coordinates/units. -/
structure SVec where
  x : ℚ
  y : ℚ
  u : ℚ
  v : ℚ
deriving DecidableEq

/-- Per-point speed `np.sqrt(u**2 + v**2)` (line 152 of the source). -/
noncomputable def speedOf (p : SVec) : ℝ := Real.sqrt ((p.u : ℝ) ^ 2 + (p.v : ℝ) ^ 2)

/-- Outlier exclusion of `dense_lucaskanade` (lines 151-161): percentiles
`q1, q2, q3` of the speeds, thresholds
`max_speed_thr = min(max_speed, q2 + nr_IQR_outlier*(q3 - q1))` and
`min_speed_thr = max(0, q2 - 2*(q3 - q1))`, and the boolean mask
`np.logical_and(speed < max_speed_thr, speed > min_speed_thr)`. -/
noncomputable def outlier_filter (samples : List SVec) (max_speed nr_IQR_outlier : ℝ) :
    List SVec :=
  let speed := samples.map speedOf
  let q1 := npPercentileR speed 25
  let q2 := npPercentileR speed 50
  let q3 := npPercentileR speed 75
  let max_speed_thr := min max_speed (q2 + nr_IQR_outlier * (q3 - q1))
  let min_speed_thr := max 0 (q2 - 2 * (q3 - q1))
  let keep := speed.map (fun s => decide (s < max_speed_thr) && decide (s > min_speed_thr))
  maskSelect samples keep

/-- Declustering cell of a sample position: `np.floor(x/decl_grid)` paired with
`np.floor(y/decl_grid)` (lines 356-361). -/
def cellKey (decl_grid : ℚ) (xi yi : ℚ) : ℤ × ℤ := (⌊xi / decl_grid⌋, ⌊yi / decl_grid⌋)

/-- The loop of `declustering` (lines 370-378): for each unique cell key, build
the boolean membership mask, and when the cell holds at least
`min_nr_samples` points append the per-column medians. -/
def declLoop (x y u v : List ℚ) (keys : List (ℤ × ℤ)) (min_nr_samples : ℕ) :
    List (ℤ × ℤ) → List ℚ × List ℚ × List ℚ × List ℚ
  | [] => ([], [], [], [])
  | c :: cs =>
    let idx := keys.map (fun kk => decide (kk = c))
    let rest := declLoop x y u v keys min_nr_samples cs
    if min_nr_samples ≤ idx.count true then
      (npMedianQ (maskSelect x idx) :: rest.1,
       npMedianQ (maskSelect y idx) :: rest.2.1,
       npMedianQ (maskSelect u idx) :: rest.2.2.1,
       npMedianQ (maskSelect v idx) :: rest.2.2.2)
    else rest

/-- `declustering` (lines 325-386).  For exactly one sample the source crashes:
`np.hstack((xT,yT)).squeeze()` (line 364) drops the length-1 row axis and
`xy.shape[1]` (line 365) raises `IndexError`.  The unique cell keys are
enumerated here with `List.dedup`; the source enumerates them through
`np.unique` on a byte view, whose order is an implementation detail the spec
declares unspecified — the two enumerations contain the same keys. -/
def declustering (x y u v : List ℚ) (decl_grid : ℚ) (min_nr_samples : ℕ) :
    Except String (List ℚ × List ℚ × List ℚ × List ℚ) :=
  if x.length = 1 then .error ("IndexError: tuple index out of range")
  else
    let keys := List.zipWith (cellKey decl_grid) x y
    .ok (declLoop x y u v keys min_nr_samples keys.dedup)

/-- Neighbour-count parameter of `interpolate_sparse_vectors`: either the
string sentinel `"all"` or an integer. -/
inductive KParam where
  | all : KParam
  | num : ℕ → KParam
deriving DecidableEq

/-- Python `str.lower()`. -/
def lowerStr (s : String) : String := String.mk (s.data.map Char.toLower)

/-- Squared euclidean distance between two points. -/
def dist2 (p q : ℚ × ℚ) : ℚ := (p.1 - q.1) ^ 2 + (p.2 - q.2) ^ 2

/-- Indices of the `k` nearest sample points to `g`, sorted by distance, ties
broken by lowest index (the `cKDTree.query` contract). -/
def knnIdx (points : List (ℚ × ℚ)) (g : ℚ × ℚ) (k : ℕ) : List ℕ :=
  (stableSort (fun i j => qle (dist2 (points.getD i (0, 0)) g) (dist2 (points.getD j (0, 0)) g))
    (List.range points.length)).take k

/-- Index of the single nearest sample point (`tree.query(subgrid, k=1)`). -/
def nn0 (points : List (ℚ × ℚ)) (g : ℚ × ℚ) : ℕ := (knnIdx points g 1).headD 0

/-- The target grid of `interpolate_sparse_vectors` (lines 446-449):
`meshgrid(arange(cols), arange(rows))` ravelled row-major, so the point at
flat index `i*cols + j` is `(x, y) = (j, i)`. -/
def gridPoints (rows cols : ℕ) : List (ℚ × ℚ) :=
  (List.range rows).flatMap (fun i => (List.range cols).map (fun j => ((j : ℚ), (i : ℚ))))

/-- `np.array_split(l, n)` along axis 0: the first `len % n` parts have
`len / n + 1` entries, the rest `len / n` entries. -/
def arraySplit (l : List α) : ℕ → List (List α)
  | 0 => []
  | n + 1 =>
    let q := l.length / (n + 1)
    let r := l.length % (n + 1)
    let s := q + if 0 < r then 1 else 0
    l.take s :: arraySplit (l.drop s) n

/-- The ordered pairs `(i, j)` with `i < j` visited by
`scipy.spatial.distance.pdist`. -/
def offDiagPairs : List α → List (α × α)
  | [] => []
  | a :: l => (l.map (fun b => (a, b))) ++ offDiagPairs l

/-- `pdist(points, euclidean)`: the flat list of pairwise distances. -/
noncomputable def pdistList (points : List (ℚ × ℚ)) : List ℝ :=
  (offDiagPairs points).map (fun pq => Real.sqrt ((dist2 pq.1 pq.2 : ℚ) : ℝ))

/-- The radial basis weights of lines 492-495: `1/np.sqrt((d/epsilon)**2 + 1)`
for `"inverse"` and `np.exp(-0.5*(d/epsilon)**2)` for `"gaussian"`. -/
noncomputable def kernelWeight (function : String) (epsilon d : ℝ) : ℝ :=
  if lowerStr function = ("inverse") then 1 / Real.sqrt ((d / epsilon) ^ 2 + 1)
  else if lowerStr function = ("gaussian") then Real.exp (-(1 / 2) * (d / epsilon) ^ 2)
  else 0

/-- Neighbour indices used for one grid point: all sample indices when
`k = "all"` (line 480), otherwise the `min(k, n_samples)` nearest ones
(lines 456, 484). -/
def neighborIdx (points : List (ℚ × ℚ)) (kp : KParam) (g : ℚ × ℚ) : List ℕ :=
  match kp with
  | .all => List.range points.length
  | .num k => knnIdx points g (min k points.length)

/-- Euclidean distance from grid point `g` to sample `i`. -/
noncomputable def distTo (points : List (ℚ × ℚ)) (g : ℚ × ℚ) (i : ℕ) : ℝ :=
  Real.sqrt ((dist2 (points.getD i (0, 0)) g : ℚ) : ℝ)

/-- The per-grid-point weighted average of lines 499-500:
`np.sum(w * vals[inds], axis=1) / np.sum(w, axis=1)` for one row. -/
noncomputable def wavgVal (points : List (ℚ × ℚ)) (vals : List ℚ) (function : String)
    (kp : KParam) (epsilon : ℝ) (g : ℚ × ℚ) : ℝ :=
  let nb := neighborIdx points kp g
  (nb.map (fun i => kernelWeight function epsilon (distTo points g i) * ((vals.getD i 0 : ℚ) : ℝ))).sum /
    (nb.map (fun i => kernelWeight function epsilon (distTo points g i))).sum

/-- One grid point of the dense output: the nearest sample's value for the
`"nearest"` kernel (lines 469-475), a kernel-weighted average otherwise. -/
noncomputable def pointVal (points : List (ℚ × ℚ)) (vals : List ℚ) (function : String)
    (kp : KParam) (epsilon : ℝ) (g : ℚ × ℚ) : ℝ :=
  if lowerStr function = ("nearest") then ((vals.getD (nn0 points g) 0 : ℚ) : ℝ)
  else wavgVal points vals function kp epsilon g

/-- Exception text of the unbound `tree` variable (line 472 reached with
`k = "all"`, so line 455 never assigned `tree`). -/
def errUnboundTree : String :=
  "UnboundLocalError: local variable tree referenced before assignment"

/-- Exception text of `u.flatten()[inds]` when the sample set is empty. -/
def errIndexEmpty : String := "IndexError: index 0 is out of bounds for axis 0 with size 0"

/-- Exception text of `tree.query` with a clipped neighbour count of zero. -/
def errKZero : String := "ValueError: k must be greater than 0"

/-- Exception text of `np.sum(..., axis=1)` on the 1-D arrays produced by
`tree.query(subgrid, k=1)` (its outputs are squeezed when `k == 1`). -/
def errAxis1 : String := "AxisError: axis 1 is out of bounds for array of dimension 1"

/-- Exception text of `np.array_split` with zero sections (line 460). -/
def errSections : String := "ValueError: number sections must be larger than 0."

/-- The unknown-kernel exception of line 497 (typo preserved from the source). -/
def errUnknownKernel (function : String) : String := "unknown radial fucntion " ++ function

/-- Processing of one subgrid chunk (lines 465-502). The order of failure
checks mirrors the source: the `"nearest"` branch dereferences `tree` first;
the other branch first queries the neighbours (lines 478-484), then resolves
the bandwidth (lines 487-489), then checks the kernel name (lines 492-497),
and finally performs the axis-1 sums (lines 499-500), which fail on the
squeezed 1-D query results when the clipped neighbour count is 1.
The returned `Option ℝ` is the state of the `epsilon` local after the chunk. -/
noncomputable def chunkResult (points : List (ℚ × ℚ)) (u v : List ℚ) (function : String)
    (kp : KParam) (epsilon : Option ℝ) (subgrid : List (ℚ × ℚ)) :
    Except String (List ℝ × List ℝ × Option ℝ) :=
  if lowerStr function = ("nearest") then
    match kp with
    | .all => .error errUnboundTree
    | .num _ =>
      if points.isEmpty then .error errIndexEmpty
      else
        .ok (subgrid.map (fun g => ((u.getD (nn0 points g) 0 : ℚ) : ℝ)),
             subgrid.map (fun g => ((v.getD (nn0 points g) 0 : ℚ) : ℝ)), epsilon)
  else
    match kp with
    | .num k =>
      if min k points.length = 0 then .error errKZero
      else
        let epsV : ℝ := match epsilon with
          | some e => e
          | none => npMedianR (pdistList points)
        if lowerStr function = ("inverse") ∨ lowerStr function = ("gaussian") then
          if min k points.length = 1 then .error errAxis1
          else
            .ok (subgrid.map (wavgVal points u function kp epsV),
                 subgrid.map (wavgVal points v function kp epsV), some epsV)
        else .error (errUnknownKernel function)
    | .all =>
      let epsV : ℝ := match epsilon with
        | some e => e
        | none => npMedianR (pdistList points)
      if lowerStr function = ("inverse") ∨ lowerStr function = ("gaussian") then
        .ok (subgrid.map (wavgVal points u function kp epsV),
             subgrid.map (wavgVal points v function kp epsV), some epsV)
      else .error (errUnknownKernel function)

/-- The chunk loop of lines 463-502, threading the `epsilon` local through the
chunks and concatenating the slices written into `U` and `V`. -/
noncomputable def runChunks (points : List (ℚ × ℚ)) (u v : List ℚ) (function : String)
    (kp : KParam) : Option ℝ → List (List (ℚ × ℚ)) → Except String (List ℝ × List ℝ)
  | _, [] => .ok ([], [])
  | epsilon, c :: cs =>
    match chunkResult points u v function kp epsilon c with
    | .error e => .error e
    | .ok (cu, cv, eps2) =>
      match runChunks points u v function kp eps2 cs with
      | .error e => .error e
      | .ok (ru, rv) => .ok (cu ++ ru, cv ++ rv)

/-- `interpolate_sparse_vectors` (lines 388-519).  The result is the pair of
flattened row-major `U` and `V` fields (the reshape of lines 505-506 is a
relabelling of the same data and the returned `X`, `Y` grids are determined by
`rows` and `cols`).  Writing the chunk outputs into consecutive slices of a
zero-initialised array (lines 451-452, 474-475, 499-502) is embedded as
concatenation of the per-chunk outputs, which fills the same positions in the
same order. -/
noncomputable def interpolate_sparse_vectors (x y u v : List ℚ) (rows cols : ℕ)
    (function : String) (kp : KParam) (epsilon : Option ℝ) (nchunks : ℕ) :
    Except String (List ℝ × List ℝ) :=
  let points := List.zip x y
  let grid := gridPoints rows cols
  if nchunks = 0 then .error errSections
  else
    let subgrids := (arraySplit grid nchunks).filter (fun c => !c.isEmpty)
    runChunks points u v function kp epsilon subgrids

/-- Which failure (if any) every chunk of a run hits; `none` means every chunk
succeeds.  The failure is decided by the sample set, kernel name and neighbour
count only, never by the chunk contents. -/
def chunkErr (points : List (ℚ × ℚ)) (function : String) (kp : KParam) : Option String :=
  if lowerStr function = ("nearest") then
    match kp with
    | .all => some errUnboundTree
    | .num _ => if points.isEmpty then some errIndexEmpty else none
  else
    match kp with
    | .num k =>
      if min k points.length = 0 then some errKZero
      else if lowerStr function = ("inverse") ∨ lowerStr function = ("gaussian") then
        if min k points.length = 1 then some errAxis1 else none
      else some (errUnknownKernel function)
    | .all =>
      if lowerStr function = ("inverse") ∨ lowerStr function = ("gaussian") then none
      else some (errUnknownKernel function)

/-- The effective bandwidth: the caller-supplied `epsilon` if any, otherwise
the median pairwise distance of the sample positions (lines 487-489). -/
noncomputable def resolveEps (points : List (ℚ × ℚ)) (epsilon : Option ℝ) : ℝ :=
  match epsilon with
  | some e => e
  | none => npMedianR (pdistList points)

/-- State of the `epsilon` local after a successful chunk. -/
noncomputable def epsAfter (function : String) (points : List (ℚ × ℚ))
    (epsilon : Option ℝ) : Option ℝ :=
  if lowerStr function = ("nearest") then epsilon else some (resolveEps points epsilon)

/-- A Python float: finite (exact rational) or one of the non-finite values
distinguished by `np.isfinite`. -/
inductive PyFloat where
  | fin : ℚ → PyFloat
  | nan : PyFloat
  | inf : PyFloat
  | ninf : PyFloat
deriving DecidableEq

/-- `np.isfinite` on one value. -/
def PyFloat.isFinite : PyFloat → Bool
  | .fin _ => true
  | _ => false

/-- Numeric value of a finite Python float (non-finite values are excluded by
validation before any arithmetic is reached). -/
def PyFloat.toQ : PyFloat → ℚ
  | .fin q => q
  | _ => 0

/-- A numpy array: its shape and its row-major flattened data. -/
structure NDArray where
  shape : List ℕ
  data : List PyFloat
deriving DecidableEq

deriving instance DecidableEq for Except

/-- The input checks of `dense_lucaskanade` on `R` (lines 82-87): three
dimensions, at least two frames, only finite values. -/
def validate_R (R : NDArray) : Except String Unit :=
  if R.shape.length ≠ 3 then
    .error ("R does not have three dimensions, but a three-dimensional array is expected")
  else if R.shape.headD 0 < 2 then
    .error ("R has fewer frames than the at least two frames expected")
  else if R.data.any (fun z => !z.isFinite) then
    .error ("All values in R must be finite")
  else .ok ()

/-- The `extra_vectors` checks of `dense_lucaskanade` (lines 106-112): when
supplied, two dimensions and exactly four columns. -/
def validate_extra (extra_vectors : Option NDArray) : Except String Unit :=
  match extra_vectors with
  | none => .ok ()
  | some E =>
    if E.shape.length ≠ 2 then
      .error ("extra_vectors does not have the 2 dimensions expected")
    else if E.shape.getD 1 0 ≠ 4 then
      .error ("extra_vectors does not have the 4 columns expected")
    else .ok ()

/-- All validation performed by `dense_lucaskanade` before the frame loop of
line 124 — that is, before any rescaling, feature detection or tracking work. -/
def dense_lucaskanade_validate (R : NDArray) (extra_vectors : Option NDArray) :
    Except String Unit := do
  validate_R R
  validate_extra extra_vectors

/-- `np.min` of a rational list (the empty case never arises after
validation). -/
def npMinQ : List ℚ → ℚ
  | [] => 0
  | a :: l => l.foldl min a

/-- `np.max` of a rational list. -/
def npMaxQ : List ℚ → ℚ
  | [] => 0
  | a :: l => l.foldl max a

/-- The data of frame `n`, i.e. the slice `R[n,:,:]` of a `(t,m,n)` array. -/
def frameData (R : NDArray) (n : ℕ) : List PyFloat :=
  let fsz := R.shape.getD 1 0 * R.shape.getD 2 0
  (R.data.drop (n * fsz)).take fsz

/-- The denominator `prvs.max() - prvs.min()` of the per-frame rescaling to
0-255 (lines 131-132). -/
def rescaleDenom (f : List PyFloat) : ℚ :=
  npMaxQ (f.map PyFloat.toQ) - npMinQ (f.map PyFloat.toQ)

/-- Python `kwargs.get(key, default)` over an association list. -/
def kwargsGet (kw : List (String × α)) (key : String) (dflt : α) : α :=
  match kw.lookup key with
  | some w => w
  | none => dflt

/-- The Lucas-Kanade window size actually used by `dense_lucaskanade`:
line 94 reads `kwargs.get("winsize_LK5", (50, 50))` — note the key — and the
resulting value is passed unchanged to `LucasKanade_features_tracking`
(line 148) and into the `winSize` tracking parameter (line 270). -/
def winsize_LK_used (kwargs : List (String × (ℕ × ℕ))) : ℕ × ℕ :=
  kwargsGet kwargs ("winsize_LK5") ((50, 50))

/-- A mutable numpy array store: arrays are identified by their index. -/
abbrev Frame := List ℚ

/-- The heap of allocated arrays (needed to model in-place writes). -/
abbrev Store := List Frame

/-- Read the array with identifier `i`. -/
def storeGet (st : Store) (i : ℕ) : Frame := st.getD i []

/-- Overwrite the array with identifier `i` in place. -/
def storeSet (st : Store) (i : ℕ) (f : Frame) : Store := st.set i f

/-- Allocate a fresh array (`.copy()` allocates) and return its identifier. -/
def storeAlloc (st : Store) (f : Frame) : Store × ℕ := (st ++ [f], st.length)

/-- The external OpenCV capabilities used by the pipeline.  They are outside
this repository, so the pipeline is modelled for an arbitrary behaviour of
each: `cv2.goodFeaturesToTrack` (returning `none` when no corner is found),
`cv2.calcOpticalFlowPyrLK` (per seed point a tracked position and a success
flag) and the binary morphological opening of `cv2.morphologyEx`. -/
structure CvExt where
  goodFeatures : Frame → Option (List (ℚ × ℚ))
  calcFlow : Frame → Frame → List (ℚ × ℚ) → List ((ℚ × ℚ) × Bool)
  morphOpen : ℕ → List Bool → List Bool

/-- The rescaling `(prvs - prvs.min())/(prvs.max() - prvs.min())*255`
(lines 131-132), elementwise on one frame. -/
def rescale255 (f : Frame) : Frame :=
  let mn := npMinQ f
  let mx := npMaxQ f
  f.map (fun z => (z - mn) / (mx - mn) * 255)

/-- `np.ndarray.astype(·, "uint8")` (lines 135-136): truncation to an 8-bit
integer. -/
def astype_uint8 (f : Frame) : Frame := f.map (fun z => ((⌊z⌋ % 256 : ℤ) : ℚ))

/-- `clean_image` (lines 290-323): binarise against the threshold, apply the
morphological opening, and write `np.nanmin(R)` into the masked pixels of the
array it was given — an in-place update of the store entry `i`. -/
def clean_image (ext : CvExt) (st : Store) (i : ℕ) (n : ℕ) (thr : ℚ) : Store :=
  let R := storeGet st i
  let field_bin := R.map (fun z => decide (z > thr))
  let field_bin_out := ext.morphOpen n field_bin
  let mask := List.zipWith (fun b bo => b && !bo) field_bin field_bin_out
  let mn := npMinQ R
  storeSet st i (List.zipWith (fun z mk => if mk then mn else z) R mask)

/-- One iteration of the frame loop of `dense_lucaskanade` (lines 124-149):
copy the two frames (`.copy()`, lines 127-128), rescale and convert the
copies, clean them in place, detect features (an error when none is found,
line 232-233) and track them, keeping only the points whose status flag is
set and returning `(x0, y0, u, v) = (p0, p1 - p0)` per surviving point
(lines 276-288). -/
def lk_pair (ext : CvExt) (size_opening : ℕ) (st : Store) (i j : ℕ) :
    Except String (List SVec) × Store :=
  let a1 := storeAlloc st (storeGet st i)
  let a2 := storeAlloc a1.1 (storeGet a1.1 j)
  let pid := a1.2
  let nid := a2.2
  let st2 := a2.1
  let st3 := storeSet st2 pid (astype_uint8 (rescale255 (storeGet st2 pid)))
  let st4 := storeSet st3 nid (astype_uint8 (rescale255 (storeGet st3 nid)))
  let st5 := clean_image ext st4 pid size_opening 0
  let st6 := clean_image ext st5 nid size_opening 0
  match ext.goodFeatures (storeGet st6 pid) with
  | none => (.error ("Shi-Tomasi found no good feature to be tracked."), st6)
  | some p0 =>
    let tr := ext.calcFlow (storeGet st6 pid) (storeGet st6 nid) p0
    let vecs := (p0.zip tr).filterMap (fun q =>
      if q.2.2 then some ⟨q.1.1, q.1.2, q.2.1.1 - q.1.1, q.2.1.2 - q.1.2⟩ else none)
    (.ok vecs, st6)

/-- The frame loop of lines 124-167 over the identifiers of the frames of `R`,
applying the per-pair outlier filter (lines 151-161) and stacking the
surviving vectors; a failing pair aborts the loop as a Python exception
would. -/
noncomputable def lk_loop (ext : CvExt) (size_opening : ℕ) (max_speed nr_IQR_outlier : ℝ) :
    Store → List ℕ → Except String (List SVec) × Store
  | st, [] => (.ok [], st)
  | st, [_] => (.ok [], st)
  | st, i :: j :: rest =>
    match lk_pair ext size_opening st i j with
    | (.error e, st2) => (.error e, st2)
    | (.ok vecs, st2) =>
      let kept := outlier_filter vecs max_speed nr_IQR_outlier
      match lk_loop ext size_opening max_speed nr_IQR_outlier st2 (j :: rest) with
      | (.error e, st3) => (.error e, st3)
      | (.ok more, st3) => (.ok (kept ++ more), st3)

/-- `dense_lucaskanade` after validation (lines 118-192), with the frames of
`R` given as store identifiers `rIds`: the frame loop, declustering, optional
concatenation of `extra_vectors` (lines 179-183) and the final interpolation —
all of which read but never write the frames of `R`. -/
noncomputable def dense_lucaskanade_st (ext : CvExt) (size_opening : ℕ)
    (max_speed nr_IQR_outlier : ℝ) (decl_grid : ℚ) (min_nr_samples : ℕ)
    (rows cols : ℕ) (function : String) (kp : KParam) (epsilon : Option ℝ)
    (nchunks : ℕ) (extra_vectors : Option (List SVec)) (st : Store) (rIds : List ℕ) :
    Except String (List ℝ × List ℝ) × Store :=
  match lk_loop ext size_opening max_speed nr_IQR_outlier st rIds with
  | (.error e, st2) => (.error e, st2)
  | (.ok vecs, st2) =>
    match declustering (vecs.map SVec.x) (vecs.map SVec.y) (vecs.map SVec.u)
        (vecs.map SVec.v) decl_grid min_nr_samples with
    | .error e => (.error e, st2)
    | .ok cols4 =>
      let ex := extra_vectors.getD []
      let xs := cols4.1 ++ ex.map SVec.x
      let ys := cols4.2.1 ++ ex.map SVec.y
      let us := cols4.2.2.1 ++ ex.map SVec.u
      let vs := cols4.2.2.2 ++ ex.map SVec.v
      (interpolate_sparse_vectors xs ys us vs rows cols function kp epsilon nchunks, st2)

/-! Helper lemmas. -/

/-- Mask selection with a pointwise-defined mask is filtering. -/
theorem maskSelect_map_self (p : α → Bool) :
    ∀ l : List α, maskSelect l (l.map p) = l.filter p := by
  intro l
  induction l with
  | nil => rfl
  | cons a l ih =>
    simp only [List.map_cons, maskSelect, List.filter_cons]
    by_cases h : p a <;> simp [h, ih]

/-- Mask selection commutes with mapping the values. -/
theorem maskSelect_map (f : α → β) :
    ∀ (l : List α) (m : List Bool), maskSelect (l.map f) m = (maskSelect l m).map f := by
  intro l
  induction l with
  | nil => intro m; cases m <;> rfl
  | cons a l ih =>
    intro m
    cases m with
    | nil => rfl
    | cons b m =>
      simp only [List.map_cons, maskSelect]
      by_cases h : b <;> simp [h, ih]

/-- Counting the set bits of a pointwise mask counts the filtered list. -/
theorem count_true_map (p : α → Bool) :
    ∀ l : List α, (l.map p).count true = (l.filter p).length := by
  intro l
  induction l with
  | nil => rfl
  | cons a l ih =>
    simp only [List.map_cons, List.filter_cons]
    by_cases h : p a <;> simp [h, ih, List.count_cons]

/-- `np.array_split` into a positive number of chunks partitions the list. -/
theorem arraySplit_join : ∀ (n : ℕ) (l : List α), 0 < n → (arraySplit l n).flatten = l := by
  intro n
  induction n with
  | zero => intro l h; exact absurd h (lt_irrefl 0)
  | succ n ih =>
    intro l _
    cases n with
    | zero =>
      simp [arraySplit, List.flatten]
    | succ m =>
      have h1 : (arraySplit l (m + 2)).flatten =
          List.take (l.length / (m + 2) + if 0 < l.length % (m + 2) then 1 else 0) l ++
            (arraySplit
              (List.drop (l.length / (m + 2) + if 0 < l.length % (m + 2) then 1 else 0) l)
              (m + 1)).flatten := rfl
      rw [h1, ih _ (Nat.succ_pos m), List.take_append_drop]

/-- Dropping empty chunks does not change the concatenation. -/
theorem flatten_filter_nonempty :
    ∀ cs : List (List α), (cs.filter (fun c => !c.isEmpty)).flatten = cs.flatten := by
  intro cs
  induction cs with
  | nil => rfl
  | cons c cs ih =>
    cases c with
    | nil => simpa using ih
    | cons a c => simpa using ih

/-- The nonempty chunks of a split are empty exactly when the list was empty. -/
theorem filter_nonempty_eq_nil (cs : List (List α)) :
    cs.filter (fun c => !c.isEmpty) = [] ↔ cs.flatten = [] := by
  induction cs with
  | nil => simp
  | cons c cs ih =>
    cases c with
    | nil => simp [ih]
    | cons a c => simp

/-- A chunk either hits the failure decided by `chunkErr` — which does not
depend on the chunk contents — or maps every grid point of the chunk to its
`pointVal`, resolving the bandwidth lazily exactly as the source does. -/
theorem chunkResult_eq (points : List (ℚ × ℚ)) (u v : List ℚ) (function : String)
    (kp : KParam) (epsilon : Option ℝ) (subgrid : List (ℚ × ℚ)) :
    chunkResult points u v function kp epsilon subgrid =
      match chunkErr points function kp with
      | some e => .error e
      | none =>
        .ok (subgrid.map (pointVal points u function kp (resolveEps points epsilon)),
             subgrid.map (pointVal points v function kp (resolveEps points epsilon)),
             epsAfter function points epsilon) := by
  unfold chunkResult chunkErr pointVal epsAfter resolveEps
  by_cases hn : lowerStr function = ("nearest")
  · simp only [hn, if_true]
    cases kp with
    | all => rfl
    | num k => by_cases he : points.isEmpty <;> simp [he]
  · simp only [hn, if_false]
    cases kp with
    | num k =>
      by_cases h0 : min k points.length = 0
      · simp [h0]
      · by_cases hig : lowerStr function = ("inverse") ∨ lowerStr function = ("gaussian")
        · by_cases h1 : min k points.length = 1
          · cases epsilon <;> simp [h0, hig, h1, hn]
          · cases epsilon <;> simp [h0, hig, h1, hn]
        · cases epsilon <;> simp [h0, hig, hn]
    | all =>
      by_cases hig : lowerStr function = ("inverse") ∨ lowerStr function = ("gaussian")
      · cases epsilon <;> simp [hig, hn]
      · cases epsilon <;> simp [hig, hn]

/-- Resolving the bandwidth is idempotent across chunks: the state left by one
chunk resolves to the same effective bandwidth. -/
theorem resolveEps_epsAfter (function : String) (points : List (ℚ × ℚ))
    (epsilon : Option ℝ) :
    resolveEps points (epsAfter function points epsilon) = resolveEps points epsilon := by
  unfold epsAfter
  by_cases hn : lowerStr function = ("nearest") <;> simp [hn, resolveEps]

/-- When no chunk fails, the chunk loop computes the per-point map of the
concatenated chunks. -/
theorem runChunks_ok (points : List (ℚ × ℚ)) (u v : List ℚ) (function : String)
    (kp : KParam) (h : chunkErr points function kp = none) :
    ∀ (cs : List (List (ℚ × ℚ))) (epsilon : Option ℝ),
      runChunks points u v function kp epsilon cs =
        .ok (cs.flatten.map (pointVal points u function kp (resolveEps points epsilon)),
             cs.flatten.map (pointVal points v function kp (resolveEps points epsilon))) := by
  intro cs
  induction cs with
  | nil => intro eps; rfl
  | cons c cs ih =>
    intro eps
    rw [runChunks, chunkResult_eq]
    simp only [h]
    rw [ih, resolveEps_epsAfter]
    simp

/-- When the run is doomed, the first (existing) chunk raises the failure. -/
theorem runChunks_error (points : List (ℚ × ℚ)) (u v : List ℚ) (function : String)
    (kp : KParam) (e : String) (h : chunkErr points function kp = some e)
    (cs : List (List (ℚ × ℚ))) (hcs : cs ≠ []) (epsilon : Option ℝ) :
    runChunks points u v function kp epsilon cs = .error e := by
  cases cs with
  | nil => exact absurd rfl hcs
  | cons c cs =>
    rw [runChunks, chunkResult_eq]
    simp [h]

/-- Full characterisation of `interpolate_sparse_vectors` for a positive chunk
count: an empty grid yields empty fields, a doomed configuration raises its
error, and otherwise every grid point independently receives its
`pointVal`. -/
theorem interp_eq (x y u v : List ℚ) (rows cols : ℕ) (function : String) (kp : KParam)
    (epsilon : Option ℝ) (nchunks : ℕ) (hn : 0 < nchunks) :
    interpolate_sparse_vectors x y u v rows cols function kp epsilon nchunks =
      match chunkErr (x.zip y) function kp with
      | none =>
        .ok ((gridPoints rows cols).map
              (pointVal (x.zip y) u function kp (resolveEps (x.zip y) epsilon)),
             (gridPoints rows cols).map
              (pointVal (x.zip y) v function kp (resolveEps (x.zip y) epsilon)))
      | some e => if gridPoints rows cols = [] then .ok ([], []) else .error e := by
  unfold interpolate_sparse_vectors
  have hnz : ¬ nchunks = 0 := Nat.pos_iff_ne_zero.mp hn
  simp only [hnz, if_false]
  cases hce : chunkErr (x.zip y) function kp with
  | none =>
    rw [runChunks_ok _ _ _ _ _ hce, flatten_filter_nonempty, arraySplit_join _ _ hn]
  | some e =>
    by_cases hg : gridPoints rows cols = []
    · have hsub : (arraySplit (gridPoints rows cols) nchunks).filter
          (fun c => !c.isEmpty) = [] := by
        rw [filter_nonempty_eq_nil, arraySplit_join _ _ hn, hg]
      rw [hsub]
      simp [runChunks, hg]
    · have hsub : (arraySplit (gridPoints rows cols) nchunks).filter
          (fun c => !c.isEmpty) ≠ [] := by
        rw [Ne, filter_nonempty_eq_nil, arraySplit_join _ _ hn]
        exact hg
      rw [runChunks_error _ _ _ _ _ _ hce _ hsub]
      simp [hg]

/-- The target grid has one point per raster cell. -/
theorem gridPoints_length (rows cols : ℕ) : (gridPoints rows cols).length = rows * cols := by
  rw [gridPoints, List.length_flatMap]
  simp only [Function.comp_def, List.length_map, List.length_range, List.map_const',
    List.sum_replicate, smul_eq_mul, mul_comm]
  simp [List.length_flatMap]
  left
  simp [Function.comp_def, List.map_const', List.sum_replicate]

/-- A non-degenerate target grid has at least one point. -/
theorem gridPoints_ne_nil (rows cols : ℕ) (hr : 0 < rows) (hc : 0 < cols) :
    gridPoints rows cols ≠ [] := by
  have hl := gridPoints_length rows cols
  intro h
  rw [h] at hl
  have := Nat.mul_pos hr hc
  simp at hl
  omega

/-- C1: for every sample set, grid shape, kernel name, neighbour-count
parameter and bandwidth, `interpolate_sparse_vectors` returns identical
results for any two positive chunk counts; chunking never changes the
(U, V) fields, nor even which error a failing configuration raises. -/
theorem chunk_invariance (x y u v : List ℚ) (rows cols : ℕ) (function : String)
    (kp : KParam) (epsilon : Option ℝ) (n1 n2 : ℕ) (h1 : 0 < n1) (h2 : 0 < n2) :
    interpolate_sparse_vectors x y u v rows cols function kp epsilon n1 =
      interpolate_sparse_vectors x y u v rows cols function kp epsilon n2 := by
  rw [interp_eq _ _ _ _ _ _ _ _ _ _ h1, interp_eq _ _ _ _ _ _ _ _ _ _ h2]

/-- Witness for C1 at a concrete input: 1 chunk versus 8 chunks. -/
theorem chunk_invariance_witness :
    (0 : ℕ) < 1 ∧ (0 : ℕ) < 8 ∧
      interpolate_sparse_vectors [0, 3] [0, 4] [1, 2] [5, 6] 5 7 ("inverse")
        (KParam.num 2) (some 1) 1 =
        interpolate_sparse_vectors [0, 3] [0, 4] [1, 2] [5, 6] 5 7 ("inverse")
          (KParam.num 2) (some 1) 8 :=
  ⟨by decide, by decide,
    chunk_invariance [0, 3] [0, 4] [1, 2] [5, 6] 5 7 ("inverse") (KParam.num 2) (some 1)
      1 8 (by decide) (by decide)⟩

/-- C2: evaluating the code at the failing input.  With `function="nearest"`
and `k="all"` the source never assigns `tree` (line 455) yet dereferences it
(line 472), so instead of the nearest-sample field the call raises; here on a
1×1 grid with one sample at (2,3) carrying velocity (1,1). -/
theorem nearest_all_unbound_tree :
    interpolate_sparse_vectors [2] [3] [1] [1] 1 1 ("nearest") KParam.all none 1 =
      .error errUnboundTree := by
  rw [interp_eq _ _ _ _ _ _ _ _ _ _ (by decide)]
  rfl

/-- Supporting fact (not itself a claim): for an integer neighbour-count
parameter and a non-empty sample set, the `"nearest"` kernel gives every grid
point exactly the velocity of its nearest sample (lowest index on ties). -/
theorem nearest_int_k_pointwise (x y u v : List ℚ) (rows cols : ℕ) (k : ℕ)
    (epsilon : Option ℝ) (nchunks : ℕ) (hpts : x.zip y ≠ []) (hn : 0 < nchunks) :
    interpolate_sparse_vectors x y u v rows cols ("nearest") (KParam.num k) epsilon nchunks =
      .ok ((gridPoints rows cols).map (fun g => ((u.getD (nn0 (x.zip y) g) 0 : ℚ) : ℝ)),
           (gridPoints rows cols).map (fun g => ((v.getD (nn0 (x.zip y) g) 0 : ℚ) : ℝ))) := by
  have hlo : lowerStr ("nearest") = ("nearest") := by rfl
  have hce : chunkErr (x.zip y) ("nearest") (KParam.num k) = none := by
    unfold chunkErr
    simp [hlo, List.isEmpty_iff, hpts]
  rw [interp_eq _ _ _ _ _ _ _ _ _ _ hn, hce]
  have hpv : ∀ vals : List ℚ,
      pointVal (x.zip y) vals ("nearest") (KParam.num k) (resolveEps (x.zip y) epsilon) =
        fun g => ((vals.getD (nn0 (x.zip y) g) 0 : ℚ) : ℝ) := by
    intro vals
    funext g
    unfold pointVal
    rw [if_pos hlo]
  rw [hpv, hpv]

/-- C6 counterexample: with kernel `"inverse"`, a single sample and the
default-style integer neighbour count, the clipped count `min(20, 1) = 1`
makes `cKDTree.query` return squeezed 1-D arrays and `np.sum(..., axis=1)`
raise, instead of returning the (trivial) weighted average. -/
theorem interp_k1_axis_error :
    interpolate_sparse_vectors [0] [0] [1] [2] 1 1 ("inverse") (KParam.num 20) (some 1) 1 =
      .error errAxis1 := by
  rw [interp_eq _ _ _ _ _ _ _ _ _ _ (by decide)]
  rfl

/-- C6 (amended): for kernel `"inverse"` or `"gaussian"` (case-insensitive), a
non-empty sample set, a neighbour-count parameter that is `"all"` or an
integer whose clipped value `min(k, n_samples)` is at least 2, a bandwidth
that is supplied or (with at least two samples) defaults to the median
pairwise sample distance, and a positive effective bandwidth, every grid
point receives the kernel-weighted average of its selected neighbours'
velocities. -/
theorem interp_weighted_average_spec (x y u v : List ℚ) (rows cols : ℕ)
    (function : String) (kp : KParam) (epsilon : Option ℝ) (nchunks : ℕ)
    (hfn : lowerStr function = ("inverse") ∨ lowerStr function = ("gaussian"))
    (hpts : x.zip y ≠ [])
    (hkp : kp = KParam.all ∨ ∃ k, kp = KParam.num k ∧ 2 ≤ min k (x.zip y).length)
    (heps : epsilon.isSome = true ∨ 2 ≤ (x.zip y).length)
    (hpos : 0 < resolveEps (x.zip y) epsilon)
    (hn : 0 < nchunks) :
    interpolate_sparse_vectors x y u v rows cols function kp epsilon nchunks =
      .ok ((gridPoints rows cols).map
            (wavgVal (x.zip y) u function kp (resolveEps (x.zip y) epsilon)),
           (gridPoints rows cols).map
            (wavgVal (x.zip y) v function kp (resolveEps (x.zip y) epsilon))) := by
  have hnn : lowerStr function ≠ ("nearest") := by
    rcases hfn with h | h <;> rw [h] <;> decide
  have hce : chunkErr (x.zip y) function kp = none := by
    rcases hkp with hk | ⟨k, hk, h2⟩
    · subst hk
      simp only [chunkErr, if_neg hnn, if_pos hfn]
    · subst hk
      have h0 : ¬ min k (x.zip y).length = 0 := by omega
      have h1 : ¬ min k (x.zip y).length = 1 := by omega
      simp only [chunkErr, if_neg hnn, if_neg h0, if_pos hfn, if_neg h1]
  rw [interp_eq _ _ _ _ _ _ _ _ _ _ hn, hce]
  have hpv : ∀ vals : List ℚ,
      pointVal (x.zip y) vals function kp (resolveEps (x.zip y) epsilon) =
        wavgVal (x.zip y) vals function kp (resolveEps (x.zip y) epsilon) := by
    intro vals
    funext g
    unfold pointVal
    rw [if_neg hnn]
  rw [hpv, hpv]

/-- Witness for C6 at a concrete input: two samples, kernel `"inverse"`,
`k="all"`, supplied bandwidth 1, one chunk, 1×2 grid. -/
theorem interp_weighted_average_spec_witness :
    (lowerStr ("inverse") = ("inverse") ∨ lowerStr ("inverse") = ("gaussian")) ∧
      ([(0 : ℚ), 1].zip [(0 : ℚ), 0] ≠ []) ∧
      (KParam.all = KParam.all ∨
        ∃ k, KParam.all = KParam.num k ∧ 2 ≤ min k ([(0 : ℚ), 1].zip [(0 : ℚ), 0]).length) ∧
      ((some (1 : ℝ)).isSome = true ∨ 2 ≤ ([(0 : ℚ), 1].zip [(0 : ℚ), 0]).length) ∧
      0 < resolveEps ([(0 : ℚ), 1].zip [(0 : ℚ), 0]) (some 1) ∧ (0 : ℕ) < 1 ∧
      interpolate_sparse_vectors [0, 1] [0, 0] [1, 3] [2, 4] 1 2 ("inverse")
        KParam.all (some 1) 1 =
        .ok ((gridPoints 1 2).map
              (wavgVal ([(0 : ℚ), 1].zip [(0 : ℚ), 0]) [1, 3] ("inverse") KParam.all
                (resolveEps ([(0 : ℚ), 1].zip [(0 : ℚ), 0]) (some 1))),
             (gridPoints 1 2).map
              (wavgVal ([(0 : ℚ), 1].zip [(0 : ℚ), 0]) [2, 4] ("inverse") KParam.all
                (resolveEps ([(0 : ℚ), 1].zip [(0 : ℚ), 0]) (some 1)))) :=
  ⟨Or.inl (by rfl), by decide, Or.inl rfl, Or.inl (by rfl),
    by simp [resolveEps],
    by decide,
    interp_weighted_average_spec [0, 1] [0, 0] [1, 3] [2, 4] 1 2 ("inverse") KParam.all
      (some 1) 1 (Or.inl (by rfl)) (by decide) (Or.inl rfl) (Or.inl (by rfl))
      (by simp [resolveEps]) (by decide)⟩

/-- C8: a kernel name that lowercases to none of `nearest`, `inverse`,
`gaussian` makes `interpolate_sparse_vectors` raise an error instead of
returning a dense field, for every sample set and every non-empty grid. -/
theorem unknown_kernel_error (x y u v : List ℚ) (rows cols : ℕ) (function : String)
    (kp : KParam) (epsilon : Option ℝ) (nchunks : ℕ)
    (hf1 : lowerStr function ≠ ("nearest"))
    (hf2 : lowerStr function ≠ ("inverse"))
    (hf3 : lowerStr function ≠ ("gaussian"))
    (hr : 0 < rows) (hc : 0 < cols) (hn : 0 < nchunks) :
    ∃ e, interpolate_sparse_vectors x y u v rows cols function kp epsilon nchunks =
      .error e := by
  have hig : ¬ (lowerStr function = ("inverse") ∨ lowerStr function = ("gaussian")) := by
    rintro (h | h)
    · exact hf2 h
    · exact hf3 h
  have hce : ∃ e, chunkErr (x.zip y) function kp = some e := by
    cases kp with
    | all =>
      exact ⟨errUnknownKernel function, by simp only [chunkErr, if_neg hf1, if_neg hig]⟩
    | num k =>
      by_cases h0 : min k (x.zip y).length = 0
      · exact ⟨errKZero, by simp only [chunkErr, if_neg hf1, if_pos h0]⟩
      · exact ⟨errUnknownKernel function,
          by simp only [chunkErr, if_neg hf1, if_neg h0, if_neg hig]⟩
  obtain ⟨e, hcee⟩ := hce
  refine ⟨e, ?_⟩
  rw [interp_eq _ _ _ _ _ _ _ _ _ _ hn, hcee]
  simp [gridPoints_ne_nil rows cols hr hc]

/-- Witness for C8 at a concrete input: kernel `"cubic"`. -/
theorem unknown_kernel_error_witness :
    lowerStr ("cubic") ≠ ("nearest") ∧ lowerStr ("cubic") ≠ ("inverse") ∧
      lowerStr ("cubic") ≠ ("gaussian") ∧ (0 : ℕ) < 1 ∧
      ∃ e, interpolate_sparse_vectors [0] [0] [0] [0] 1 1 ("cubic") (KParam.num 1) none 1 =
        .error e :=
  ⟨by decide, by decide, by decide, by decide,
    unknown_kernel_error [0] [0] [0] [0] 1 1 ("cubic") (KParam.num 1) none 1
      (by decide) (by decide) (by decide) (by decide) (by decide) (by decide)⟩

/-- The columns of a row list recover the per-cell medians: the declustering
loop over any cell enumeration produces, per enumerated cell that holds at
least the threshold, the four medians of the rows assigned to that cell. -/
theorem declLoop_eq (S : List SVec) (key : SVec → ℤ × ℤ) (m : ℕ) :
    ∀ cs : List (ℤ × ℤ),
      declLoop (S.map SVec.x) (S.map SVec.y) (S.map SVec.u) (S.map SVec.v) (S.map key) m cs =
        (((cs.filter (fun c => decide (m ≤ (S.filter (fun p => decide (key p = c))).length))).map
            (fun c => npMedianQ ((S.filter (fun p => decide (key p = c))).map SVec.x))),
         ((cs.filter (fun c => decide (m ≤ (S.filter (fun p => decide (key p = c))).length))).map
            (fun c => npMedianQ ((S.filter (fun p => decide (key p = c))).map SVec.y))),
         ((cs.filter (fun c => decide (m ≤ (S.filter (fun p => decide (key p = c))).length))).map
            (fun c => npMedianQ ((S.filter (fun p => decide (key p = c))).map SVec.u))),
         ((cs.filter (fun c => decide (m ≤ (S.filter (fun p => decide (key p = c))).length))).map
            (fun c => npMedianQ ((S.filter (fun p => decide (key p = c))).map SVec.v)))) := by
  intro cs
  induction cs with
  | nil => rfl
  | cons c cs ih =>
    have hmask : (S.map key).map (fun kk => decide (kk = c)) =
        S.map (fun p => decide (key p = c)) := by
      rw [List.map_map]
      rfl
    have hcount : (S.map (fun p => decide (key p = c))).count true =
        (S.filter (fun p => decide (key p = c))).length :=
      count_true_map _ S
    have hsel : ∀ f : SVec → ℚ,
        maskSelect (S.map f) (S.map (fun p => decide (key p = c))) =
          (S.filter (fun p => decide (key p = c))).map f := by
      intro f
      rw [maskSelect_map, maskSelect_map_self]
    rw [declLoop]
    simp only [hmask, hcount, hsel, ih]
    by_cases hq : m ≤ (S.filter (fun p => decide (key p = c))).length
    · simp [List.filter_cons, hq]
    · simp [List.filter_cons, hq]

/-- C4 counterexample: the claim quantifies over every finite sample set, but
on a single sample `declustering` crashes (the `.squeeze()` of line 364 drops
the length-1 axis, so `xy.shape[1]` raises `IndexError`) instead of emitting
that sample's cell median. -/
theorem declustering_single_sample_error :
    declustering [5] [5] [1] [2] 10 1 = .error ("IndexError: tuple index out of range") := by
  rfl

/-- C4 (amended): for every sample set not consisting of exactly one sample
and every positive cell size, declustering assigns each sample to the cell
`(floor(x/decl_grid), floor(y/decl_grid))`; each represented cell holding at
least `min_nr_samples` samples contributes exactly one output sample whose
x, y, u, v are the medians of that cell's members, and cells below the
threshold contribute nothing. -/
theorem declustering_median_spec (S : List SVec) (decl_grid : ℚ) (min_nr_samples : ℕ)
    (h1 : S.length ≠ 1) (hg : 0 < decl_grid) :
    declustering (S.map SVec.x) (S.map SVec.y) (S.map SVec.u) (S.map SVec.v)
        decl_grid min_nr_samples =
      .ok (let key := fun p : SVec => cellKey decl_grid p.x p.y
           let cells := (S.map key).dedup.filter
             (fun c => decide (min_nr_samples ≤
               (S.filter (fun p => decide (key p = c))).length))
           (cells.map (fun c => npMedianQ ((S.filter (fun p => decide (key p = c))).map SVec.x)),
            cells.map (fun c => npMedianQ ((S.filter (fun p => decide (key p = c))).map SVec.y)),
            cells.map (fun c => npMedianQ ((S.filter (fun p => decide (key p = c))).map SVec.u)),
            cells.map (fun c => npMedianQ ((S.filter (fun p => decide (key p = c))).map SVec.v)))) := by
  have hkeys : ∀ T : List SVec,
      List.zipWith (cellKey decl_grid) (T.map SVec.x) (T.map SVec.y) =
        T.map (fun p => cellKey decl_grid p.x p.y) := by
    intro T
    induction T with
    | nil => rfl
    | cons a T ih => simp [ih]
  unfold declustering
  rw [if_neg (by rw [List.length_map]; exact h1)]
  dsimp only
  rw [hkeys, declLoop_eq]

/-- Witness for C4 at a concrete input: two samples in the same 20-px cell
with threshold 2. -/
theorem declustering_median_spec_witness :
    ([(⟨0, 0, 1, 2⟩ : SVec), ⟨1, 1, 3, 4⟩].length ≠ 1) ∧ ((0 : ℚ) < 20) ∧
      declustering ([(⟨0, 0, 1, 2⟩ : SVec), ⟨1, 1, 3, 4⟩].map SVec.x)
          ([(⟨0, 0, 1, 2⟩ : SVec), ⟨1, 1, 3, 4⟩].map SVec.y)
          ([(⟨0, 0, 1, 2⟩ : SVec), ⟨1, 1, 3, 4⟩].map SVec.u)
          ([(⟨0, 0, 1, 2⟩ : SVec), ⟨1, 1, 3, 4⟩].map SVec.v) 20 2 =
        .ok (let key := fun p : SVec => cellKey 20 p.x p.y
             let cells := ([(⟨0, 0, 1, 2⟩ : SVec), ⟨1, 1, 3, 4⟩].map key).dedup.filter
               (fun c => decide (2 ≤
                 ([(⟨0, 0, 1, 2⟩ : SVec), ⟨1, 1, 3, 4⟩].filter
                   (fun p => decide (key p = c))).length))
             (cells.map (fun c => npMedianQ (([(⟨0, 0, 1, 2⟩ : SVec), ⟨1, 1, 3, 4⟩].filter
                (fun p => decide (key p = c))).map SVec.x)),
              cells.map (fun c => npMedianQ (([(⟨0, 0, 1, 2⟩ : SVec), ⟨1, 1, 3, 4⟩].filter
                (fun p => decide (key p = c))).map SVec.y)),
              cells.map (fun c => npMedianQ (([(⟨0, 0, 1, 2⟩ : SVec), ⟨1, 1, 3, 4⟩].filter
                (fun p => decide (key p = c))).map SVec.u)),
              cells.map (fun c => npMedianQ (([(⟨0, 0, 1, 2⟩ : SVec), ⟨1, 1, 3, 4⟩].filter
                (fun p => decide (key p = c))).map SVec.v)))) :=
  ⟨by decide, by norm_num,
    declustering_median_spec [⟨0, 0, 1, 2⟩, ⟨1, 1, 3, 4⟩] 20 2 (by decide) (by norm_num)⟩

/-- C5: the outlier filter retains exactly the samples whose speed lies
strictly between `max(0, q2 - 2*(q3 - q1))` and
`min(max_speed, q2 + nr_IQR_outlier*(q3 - q1))`, with `q1, q2, q3` the
25th/50th/75th percentiles of the speeds `sqrt(u^2 + v^2)`. -/
theorem outlier_filter_spec (samples : List SVec) (max_speed nr_IQR_outlier : ℝ)
    (h : samples ≠ []) :
    outlier_filter samples max_speed nr_IQR_outlier =
      samples.filter (fun p =>
        decide (speedOf p < min max_speed
          (npPercentileR (samples.map speedOf) 50 +
            nr_IQR_outlier * (npPercentileR (samples.map speedOf) 75 -
              npPercentileR (samples.map speedOf) 25))) &&
        decide (speedOf p > max 0
          (npPercentileR (samples.map speedOf) 50 -
            2 * (npPercentileR (samples.map speedOf) 75 -
              npPercentileR (samples.map speedOf) 25)))) := by
  unfold outlier_filter
  dsimp only
  rw [List.map_map, maskSelect_map_self]
  rfl

/-- Witness for C5 at a concrete input: one sample of speed 5 (a 3-4-5
triangle), maximum speed 10 and multiplier 3. -/
theorem outlier_filter_spec_witness :
    ([(⟨0, 0, 3, 4⟩ : SVec)] ≠ []) ∧
      outlier_filter [⟨0, 0, 3, 4⟩] 10 3 =
        [(⟨0, 0, 3, 4⟩ : SVec)].filter (fun p =>
          decide (speedOf p < min 10
            (npPercentileR ([(⟨0, 0, 3, 4⟩ : SVec)].map speedOf) 50 +
              3 * (npPercentileR ([(⟨0, 0, 3, 4⟩ : SVec)].map speedOf) 75 -
                npPercentileR ([(⟨0, 0, 3, 4⟩ : SVec)].map speedOf) 25))) &&
          decide (speedOf p > max 0
            (npPercentileR ([(⟨0, 0, 3, 4⟩ : SVec)].map speedOf) 50 -
              2 * (npPercentileR ([(⟨0, 0, 3, 4⟩ : SVec)].map speedOf) 75 -
                npPercentileR ([(⟨0, 0, 3, 4⟩ : SVec)].map speedOf) 25)))) :=
  ⟨by decide, outlier_filter_spec [⟨0, 0, 3, 4⟩] 10 3 (by decide)⟩

/-- The `R` checks pass exactly for three-dimensional, at-least-two-frame,
all-finite inputs. -/
theorem validate_R_iff (R : NDArray) :
    validate_R R = .ok () ↔
      (R.shape.length = 3 ∧ 2 ≤ R.shape.headD 0 ∧ ∀ z ∈ R.data, z.isFinite = true) := by
  unfold validate_R
  split_ifs with h1 h2 h3
  · simp [h1]
  · simp only [not_not] at h1
    constructor
    · intro hc
      exact absurd hc (by simp)
    · rintro ⟨_, hc, _⟩
      omega
  · constructor
    · intro hc
      exact absurd hc (by simp)
    · rintro ⟨_, _, hfin⟩
      rw [List.any_eq_true] at h3
      obtain ⟨z, hz, hb⟩ := h3
      have := hfin z hz
      simp [this] at hb
  · simp only [not_not] at h1
    simp only [Nat.not_lt] at h2
    constructor
    · intro _
      refine ⟨h1, h2, ?_⟩
      intro z hz
      by_contra hzf
      exact h3 (List.any_eq_true.mpr ⟨z, hz, by simp [hzf]⟩)
    · intro _
      rfl

/-- The `extra_vectors` checks pass exactly when absent or of the documented
shape. -/
theorem validate_extra_iff (extra_vectors : Option NDArray) :
    validate_extra extra_vectors = .ok () ↔
      ∀ E, extra_vectors = some E → (E.shape.length = 2 ∧ E.shape.getD 1 0 = 4) := by
  unfold validate_extra
  cases extra_vectors with
  | none => simp
  | some E =>
    dsimp only
    split_ifs with h1 h2
    · simp [h1]
    · simp only [not_not] at h1
      constructor
      · intro hc
        exact absurd hc (by simp)
      · intro hall
        exact absurd (hall E rfl).2 h2
    · simp only [not_not] at h1 h2
      constructor
      · intro _ E2 hE2
        cases hE2
        exact ⟨h1, h2⟩
      · intro _
        rfl

/-- C7: the up-front validation of `dense_lucaskanade` — which runs before any
rescaling, feature detection or tracking (it precedes the frame loop of
line 124) — succeeds exactly when `R` is three-dimensional with at least two
frames and only finite values, and `extra_vectors`, when supplied, is
two-dimensional with exactly four columns; otherwise the call raises. -/
theorem dense_lucaskanade_validate_iff (R : NDArray) (extra_vectors : Option NDArray) :
    dense_lucaskanade_validate R extra_vectors = .ok () ↔
      (R.shape.length = 3 ∧ 2 ≤ R.shape.headD 0 ∧ (∀ z ∈ R.data, z.isFinite = true) ∧
        ∀ E, extra_vectors = some E → (E.shape.length = 2 ∧ E.shape.getD 1 0 = 4)) := by
  constructor
  · intro h
    cases hv : validate_R R with
    | error e =>
      unfold dense_lucaskanade_validate at h
      rw [hv] at h
      exact absurd h (by simp [Bind.bind, Except.bind])
    | ok u =>
      cases u
      unfold dense_lucaskanade_validate at h
      rw [hv] at h
      have h3 := (validate_R_iff R).mp hv
      have h4 := (validate_extra_iff extra_vectors).mp (by simpa [Bind.bind, Except.bind] using h)
      exact ⟨h3.1, h3.2.1, h3.2.2, h4⟩
  · rintro ⟨h1, h2, h3, h4⟩
    have hv : validate_R R = .ok () := (validate_R_iff R).mpr ⟨h1, h2, h3⟩
    unfold dense_lucaskanade_validate
    rw [hv]
    simpa [Bind.bind, Except.bind] using (validate_extra_iff extra_vectors).mpr h4

/-- C9: a concrete input satisfying every documented precondition of
`dense_lucaskanade` — three-dimensional, two frames, all values finite —
whose first frame is constant, so the rescaling denominator
`prvs.max() - prvs.min()` of line 131 is exactly zero: validation does not
protect the division. -/
theorem constant_frame_zero_denominator :
    dense_lucaskanade_validate
        ⟨[2, 2, 2], [.fin 5, .fin 5, .fin 5, .fin 5, .fin 1, .fin 2, .fin 3, .fin 4]⟩ none =
      .ok () ∧
      rescaleDenom (frameData
        ⟨[2, 2, 2], [.fin 5, .fin 5, .fin 5, .fin 5, .fin 1, .fin 2, .fin 3, .fin 4]⟩ 0) = 0 := by
  constructor
  · rfl
  · simp [rescaleDenom, frameData, npMinQ, npMaxQ, PyFloat.toQ]

/-- C3: the failing input evaluated.  Line 94 reads the kwargs key
`"winsize_LK5"` instead of the documented `winsize_LK`, so a caller-supplied
`winsize_LK=(10,10)` is silently ignored and the default `(50,50)` is used;
only the misspelled key would actually be honoured. -/
theorem winsize_kwarg_typo :
    winsize_LK_used [(("winsize_LK"), ((10, 10)))] = (50, 50) ∧
      winsize_LK_used [] = (50, 50) ∧
      winsize_LK_used [(("winsize_LK5"), ((10, 10)))] = (10, 10) := by
  refine ⟨?_, ?_, ?_⟩ <;> rfl

/-- Writing at an index at or beyond `n` leaves the first `n` entries alone. -/
theorem take_set_of_le (l : List α) (i n : ℕ) (a : α) (h : n ≤ i) :
    (l.set i a).take n = l.take n := by
  induction l generalizing i n with
  | nil => simp
  | cons b l ih =>
    cases i with
    | zero =>
      have hn : n = 0 := Nat.le_zero.mp h
      simp [hn]
    | succ i =>
      cases n with
      | zero => simp
      | succ n =>
        simp only [List.set_cons_succ, List.take_succ_cons]
        rw [ih _ _ (Nat.le_of_succ_le_succ h)]

/-- Appending never disturbs the existing prefix. -/
theorem take_append_frame (st : Store) (f : Frame) (n : ℕ) (h : n ≤ st.length) :
    (st ++ [f]).take n = st.take n :=
  List.take_append_of_le_length h

/-- Prefix preservation composes. -/
theorem take_trans {st st2 st3 : Store} (h12 : st2.take st.length = st)
    (h23 : st3.take st2.length = st2) : st3.take st.length = st := by
  have hlen : st.length ≤ st2.length := by
    have hl := congrArg List.length h12
    simp only [List.length_take] at hl
    omega
  calc st3.take st.length = (st3.take st2.length).take st.length := by
        rw [List.take_take, min_eq_left hlen]
    _ = st2.take st.length := by rw [h23]
    _ = st := h12

/-- One frame-pair iteration allocates two copies and writes only into them:
the arrays that existed before the call are untouched, whether feature
detection succeeds or not. -/
theorem lk_pair_store (ext : CvExt) (size_opening : ℕ) (st : Store) (i j : ℕ) :
    ((lk_pair ext size_opening st i j).2).take st.length = st := by
  unfold lk_pair clean_image storeSet storeAlloc storeGet
  dsimp only
  cases ext.goodFeatures _ with
  | none =>
    dsimp only
    rw [take_set_of_le _ _ _ _ (by simp), take_set_of_le _ _ _ _ (by simp),
      take_set_of_le _ _ _ _ (by simp), take_set_of_le _ _ _ _ (by simp),
      take_append_frame _ _ _ (by simp), take_append_frame _ _ _ (by simp),
      List.take_length]
  | some p0 =>
    dsimp only
    rw [take_set_of_le _ _ _ _ (by simp), take_set_of_le _ _ _ _ (by simp),
      take_set_of_le _ _ _ _ (by simp), take_set_of_le _ _ _ _ (by simp),
      take_append_frame _ _ _ (by simp), take_append_frame _ _ _ (by simp),
      List.take_length]

/-- The whole frame loop preserves every array that existed before it. -/
theorem lk_loop_store (ext : CvExt) (size_opening : ℕ) (max_speed nr_IQR_outlier : ℝ) :
    ∀ (rIds : List ℕ) (st : Store),
      ((lk_loop ext size_opening max_speed nr_IQR_outlier st rIds).2).take st.length = st := by
  intro rIds
  induction rIds with
  | nil =>
    intro st
    exact List.take_length st
  | cons i rest ih =>
    intro st
    cases rest with
    | nil => exact List.take_length st
    | cons j rest2 =>
      rw [lk_loop]
      cases hp : lk_pair ext size_opening st i j with
      | mk res st2 =>
        have h2 : st2.take st.length = st := by
          have hps := lk_pair_store ext size_opening st i j
          rw [hp] at hps
          exact hps
        cases res with
        | error e => exact h2
        | ok vecs =>
          dsimp only
          cases hl : lk_loop ext size_opening max_speed nr_IQR_outlier st2 (j :: rest2) with
          | mk res2 st3 =>
            have h3 : st3.take st2.length = st2 := by
              have hls := ih st2
              rw [hl] at hls
              exact hls
            have h13 := take_trans h2 h3
            cases res2 with
            | error e => exact h13
            | ok more => exact h13

/-- C10: `dense_lucaskanade` never modifies its input `R`.  Every frame is
copied (lines 127-128) before the in-place rescaling, 8-bit conversion and
morphological cleaning; `clean_image` writes into the array it is given but
only ever receives the copies; the remaining stages are pure.  So for every
behaviour of the OpenCV externals, every parameterisation, and every run —
successful or failing partway — all arrays that existed before the call,
including the frames of `R`, still hold their original values. -/
theorem input_R_unmodified (ext : CvExt) (size_opening : ℕ)
    (max_speed nr_IQR_outlier : ℝ) (decl_grid : ℚ) (min_nr_samples rows cols : ℕ)
    (function : String) (kp : KParam) (epsilon : Option ℝ) (nchunks : ℕ)
    (extra_vectors : Option (List SVec)) (st : Store) (rIds : List ℕ) :
    ((dense_lucaskanade_st ext size_opening max_speed nr_IQR_outlier decl_grid
        min_nr_samples rows cols function kp epsilon nchunks extra_vectors st
        rIds).2).take st.length = st := by
  unfold dense_lucaskanade_st
  cases hl : lk_loop ext size_opening max_speed nr_IQR_outlier st rIds with
  | mk res st2 =>
    have h2 : st2.take st.length = st := by
      have hls := lk_loop_store ext size_opening max_speed nr_IQR_outlier rIds st
      rw [hl] at hls
      exact hls
    cases res with
    | error e => exact h2
    | ok vecs =>
      dsimp only
      cases declustering (vecs.map SVec.x) (vecs.map SVec.y) (vecs.map SVec.u)
          (vecs.map SVec.v) decl_grid min_nr_samples with
      | error e => exact h2
      | ok cols4 => exact h2
